import Mathlib

/-!
Verification of the session-security core of the starter-kit-auth repository.

The TypeScript source is shallowly embedded: pure functions become Lean
functions, Redis and Prisma state becomes explicit association lists that are
passed and returned, and library primitives (argon2, the sha256 digest, the
system RNG) become function parameters or descriptor values, since the claims
under check depend only on how the core invokes them, never on their internals.
Field and function names follow the source where Lean allows it.
-/

/-- String.map over the character list; the character-list form of the
standard library primitive, chosen so that terms reduce inside the kernel. -/
def jsMapChars (f : Char → Char) (s : String) : String :=
  String.mk (s.data.map f)

/-- toUpperCase on the methods this code compares, which are ASCII. -/
def jsToUpper (s : String) : String := jsMapChars Char.toUpper s

/-- toLowerCase on the emails this code normalises. -/
def jsToLower (s : String) : String := jsMapChars Char.toLower s

def isJsSpace (c : Char) : Bool :=
  c == ' ' || c == '\t' || c == '\n' || c == '\r'

/-- String.prototype.trim, over the whitespace characters that occur in
http headers and form fields. -/
def jsTrim (s : String) : String :=
  String.mk (((s.data.dropWhile isJsSpace).reverse.dropWhile isJsSpace).reverse)

def splitOnCharAux (sep : Char) : List Char → List Char → List String
  | [], acc => [String.mk acc.reverse]
  | c :: cs, acc =>
      if c == sep then String.mk acc.reverse :: splitOnCharAux sep cs []
      else splitOnCharAux sep cs (c :: acc)

/-- String.prototype.split with a one-character separator, as used on
commas, dots and colons in the source; the empty string yields one empty
field, like in JavaScript. -/
def splitOnChar (sep : Char) (s : String) : List String :=
  splitOnCharAux sep s.data []

def jsStartsWith (s pre : String) : Bool :=
  s.data.take pre.data.length == pre.data

def jsDrop (n : Nat) (s : String) : String :=
  String.mk (s.data.drop n)

/-- JavaScript truthiness of an optional string: undefined and the empty
string are falsy, every other string is truthy. Mirrors tests such as
(!sid) and Boolean(cookies[name]) in the source. -/
def jsTruthy (v : Option String) : Bool :=
  match v with
  | some s => s != ""
  | none => false

/-- First-match association-list lookup; models both object indexing on a
parsed cookie map and findUnique on a keyed table. -/
def alookup {α : Type} : List (String × α) → String → Option α
  | [], _ => none
  | (k, v) :: rest, key => if k = key then some v else alookup rest key

/-- Deleting a key: removes every pair carrying it. Models redis DEL and
prisma delete of a single keyed row. -/
def assocErase {α : Type} (k : String) (l : List (String × α)) : List (String × α) :=
  l.filter (fun p => !(p.1 == k))

/-- Setting a key, dropping any previous binding. Models redis SET and a
keyed insert. -/
def assocSet {α : Type} (k : String) (v : α) (l : List (String × α)) : List (String × α) :=
  (k, v) :: assocErase k l

theorem alookup_filter_key {α : Type} (q : String → Bool) (l : List (String × α)) (k : String) :
    alookup (l.filter (fun p => q p.1)) k = if q k then alookup l k else none := by
  induction l with
  | nil => simp [alookup]
  | cons hd tl ih =>
    by_cases hk : hd.1 = k
    · subst hk
      by_cases hq : q hd.1
      · simp [alookup, hq, List.filter]
      · simp [alookup, List.filter, hq, ih]
    · by_cases hq : q hd.1
      · simp only [List.filter, hq]
        simp [alookup, hk, ih]
      · simp only [List.filter, hq]
        simp [alookup, hk, ih]

theorem alookup_assocErase {α : Type} (k k' : String) (l : List (String × α)) :
    alookup (assocErase k l) k' = if k' = k then none else alookup l k' := by
  unfold assocErase
  have h := alookup_filter_key (fun key => !(key == k)) l k'
  simp only at h
  rw [h]
  by_cases hk : k' = k
  · simp [hk]
  · simp [hk]

theorem alookup_assocSet {α : Type} (k k' : String) (v : α) (l : List (String × α)) :
    alookup (assocSet k v l) k' = if k' = k then some v else alookup l k' := by
  unfold assocSet
  by_cases hk : k' = k
  · simp [alookup, hk]
  · simp [alookup, hk, Ne.symm hk, alookup_assocErase]

theorem alookup_none_of_none {α : Type} (p : String × α → Bool) (l : List (String × α))
    (k : String) (h : alookup l k = none) : alookup (l.filter p) k = none := by
  induction l with
  | nil => simp [alookup]
  | cons hd tl ih =>
    simp only [alookup] at h
    by_cases hk : hd.1 = k
    · simp [hk] at h
    · have h2 : alookup tl k = none := by
        simpa [alookup, hk] using h
      by_cases hp : p hd
      · simp only [List.filter, hp]
        simpa [alookup, hk] using ih h2
      · simp only [List.filter, hp]
        exact ih h2

/-- Lookup through a value filter, assuming the keys are distinct (the
store invariant of a keyed table). -/
theorem alookup_filter_nodup {α : Type} (p : String × α → Bool) (l : List (String × α))
    (hnd : (l.map Prod.fst).Nodup) (k : String) (v : α) (h : alookup l k = some v) :
    alookup (l.filter p) k = if p (k, v) then some v else none := by
  induction l with
  | nil => simp [alookup] at h
  | cons hd tl ih =>
    simp only [List.map, List.nodup_cons] at hnd
    by_cases hk : hd.1 = k
    · have hv : hd.2 = v := by
        simpa [alookup, hk] using h
      have hpair : hd = (k, v) := by
        cases hd
        simp_all
      subst hpair
      have htl : alookup tl k = none := by
        cases htl : alookup tl k with
        | none => rfl
        | some w =>
          exfalso
          apply hnd.1
          clear ih h hnd
          induction tl with
          | nil => simp [alookup] at htl
          | cons hd2 tl2 ih2 =>
            simp only [alookup] at htl
            by_cases hk2 : hd2.1 = k
            · simp [hk2]
            · simp only [hk2, if_false] at htl
              simp [ih2 htl]
      by_cases hp : p (k, v)
      · simp [List.filter, hp, alookup]
      · simp only [List.filter, hp]
        simp [hp, alookup_none_of_none p tl k htl]
    · have h2 : alookup tl k = some v := by
        simpa [alookup, hk] using h
      by_cases hp : p hd
      · simp only [List.filter, hp]
        simpa [alookup, hk] using ih hnd.2 h2
      · simp only [List.filter, hp]
        exact ih hnd.2 h2

theorem alookup_mem {α : Type} (l : List (String × α)) (k : String) (v : α)
    (h : alookup l k = some v) : (k, v) ∈ l := by
  induction l with
  | nil => simp [alookup] at h
  | cons hd tl ih =>
    by_cases hk : hd.1 = k
    · have hv : hd.2 = v := by simpa [alookup, hk] using h
      have hpair : hd = (k, v) := by
        cases hd
        simp_all
      rw [hpair]
      exact List.mem_cons_self _ _
    · exact List.mem_cons_of_mem _ (ih (by simpa [alookup, hk] using h))

theorem alookup_erase_absent {α : Type} (k : String) (l : List (String × α))
    (h : alookup l k = none) : assocErase k l = l := by
  induction l with
  | nil => rfl
  | cons hd tl ih =>
    simp only [alookup] at h
    by_cases hk : hd.1 = k
    · simp [hk] at h
    · have h2 : alookup tl k = none := by simpa [alookup, hk] using h
      simp only [assocErase, List.filter]
      have : (hd.1 == k) = false := by simpa using hk
      simp only [this, Bool.not_false]
      have htl := ih h2
      unfold assocErase at htl
      rw [htl]

theorem assocErase_idem {α : Type} (k : String) (l : List (String × α)) :
    assocErase k (assocErase k l) = assocErase k l := by
  apply alookup_erase_absent
  simp [alookup_assocErase]

/- ===================== configuration (tokens.ts) ===================== -/

/-- CookieConfig from tokens.ts. ttlDays is modelled as a whole number of
days; the source computes ttlSec as max(1, floor(ttlDays * 86400)). -/
structure CookieConfig where
  name : String
  domain : Option String
  secure : Bool
  sameSite : String
  ttlDays : Nat
deriving DecidableEq, Repr

/-- AuthModuleOptions, restricted to the fields the verified core reads.
disableEmailVerification is emailVerification?.disableEmailVerification
with the or-false default already applied. -/
structure AuthConfig where
  pepper : String
  csrfCookieName : String
  cookie : CookieConfig
  disableEmailVerification : Bool
deriving DecidableEq, Repr

/- ===================== crypto and http helpers ===================== -/

/-- ipHash from common/crypto.ts: sha256 of ip, a bar, and the pepper. The
sha256 digest itself is a node crypto library call, taken as a parameter. -/
def ipHash (sha256 : String → String) (ip pepper : String) : String :=
  sha256 (ip ++ "|" ++ pepper)

/-- One dotted group of the IPV4 regex in common/http.ts:
25[0-5] or 2[0-4][0-9] or [01]?[0-9][0-9]?. -/
def isIpv4Octet (s : String) : Bool :=
  match s.toList with
  | [a] => a.isDigit
  | [a, b] => a.isDigit && b.isDigit
  | [a, b, c] =>
      (a == '2' && b == '5' && decide ('0' ≤ c ∧ c ≤ '5')) ||
      (a == '2' && decide ('0' ≤ b ∧ b ≤ '4') && c.isDigit) ||
      ((a == '0' || a == '1') && b.isDigit && c.isDigit)
  | _ => false

/-- The IPV4_REGEX test of common/http.ts: four octet groups joined by dots. -/
def isValidIpv4 (s : String) : Bool :=
  match splitOnChar '.' s with
  | [a, b, c, d] => isIpv4Octet a && isIpv4Octet b && isIpv4Octet c && isIpv4Octet d
  | _ => false

def isHexDigitChar (c : Char) : Bool :=
  c.isDigit || decide ('a' ≤ c ∧ c ≤ 'f') || decide ('A' ≤ c ∧ c ≤ 'F')

/-- The IPV6_REGEX test of common/http.ts: exactly eight colon-separated
groups of one to four hex digits (full form only). -/
def isValidIpv6 (s : String) : Bool :=
  let parts := splitOnChar ':' s
  parts.length == 8 &&
    parts.all (fun p => 1 ≤ p.length && p.length ≤ 4 && p.toList.all isHexDigitChar)

def isValidIp (ip : String) : Bool :=
  isValidIpv4 ip || isValidIpv6 ip

/-- An inbound request, as the session and audit components see it. The
cookie header is carried already parsed by the cookie library. -/
structure HttpReq where
  cookies : List (String × String)
  xForwardedFor : Option String
  userAgent : Option String
  remoteAddress : Option String
deriving DecidableEq, Repr

/-- getIp from the package common/http.ts: first valid address in
x-forwarded-for, else the socket address with IPv6 localhost and the
::ffff: mapped form normalised, else 0.0.0.0. -/
def getIp (req : HttpReq) : String :=
  let xfwd := req.xForwardedFor.getD ""
  let fromSocket :=
    let socketIp := req.remoteAddress.getD ""
    if socketIp = "::1" ∨ socketIp = "::ffff:127.0.0.1" then "127.0.0.1"
    else
      let cleanIp := if jsStartsWith socketIp "::ffff:" then jsDrop 7 socketIp else socketIp
      if isValidIp cleanIp then cleanIp else "0.0.0.0"
  if xfwd != "" then
    match ((splitOnChar ',' xfwd).map jsTrim).find? isValidIp with
    | some ip => ip
    | none => fromSocket
  else fromSocket

/-- getUserAgent from common/http.ts. -/
def getUserAgent (req : HttpReq) : String :=
  req.userAgent.getD ""

/- ===================== audit (audit.service.ts) ===================== -/

/-- The row written to the auditLog table by AuditService.append. The meta
payload is opaque to the claims and omitted. -/
structure AuditRecord where
  kind : String
  userId : Option String
  ip : Option String
  ua : Option String
deriving DecidableEq, Repr

namespace AuditService

/-- AuditService.append: extracts ip and ua from the request when one is
given and, when prisma is wired, creates the auditLog row (its catch
swallows write failures, which a pure model does not observe). -/
def append (hasPrisma : Bool) (kind : String) (userId : Option String)
    (req : Option HttpReq) : Option AuditRecord :=
  let ip := req.map getIp
  let ua := req.map getUserAgent
  if hasPrisma then some { kind := kind, userId := userId, ip := ip, ua := ua }
  else none

end AuditService

/- ===================== csrf middleware ===================== -/

/-- Which random primitive a middleware variant calls to mint a CSRF token.
cryptoB64url n is randomTokenB64url(n) from common/crypto.ts: n bytes from
crypto.randomBytes, base64 encoded, plus and slash made URL safe, padding
stripped. mathRandomBase36Slice32 is the expression in the packaged
csrf.middleware.ts: two Math.random() floats printed in base 36, with the
leading zero-dot removed, concatenated and truncated to 32 characters. -/
inductive TokenSource where
  | cryptoB64url (byteLength : Nat)
  | mathRandomBase36Slice32
deriving DecidableEq, Repr

/-- The Set-Cookie the middleware serialises when issuing a CSRF token. -/
structure SetCookieInfo where
  name : String
  tokenSource : TokenSource
  httpOnly : Bool
  secure : Bool
  sameSite : String
  path : String
  domain : Option String
  maxAge : Nat
deriving DecidableEq, Repr

inductive CsrfOutcome where
  | nextOnly
  | issueAndNext (c : SetCookieInfo)
  | reject403
deriving DecidableEq, Repr

/-- The request fields CsrfMiddleware.use reads. -/
structure CsrfRequest where
  method : String
  cookies : List (String × String)
  headerCsrfToken : Option String
deriving DecidableEq, Repr

def mutatingMethods : List String := ["POST", "PUT", "PATCH", "DELETE"]

/-- CsrfMiddleware.use. Both copies of the middleware in the repository are
identical except for the token expression, abstracted as gen: on a GET
without a CSRF cookie a token is issued in a readable 30 day cookie; on a
mutating method with a session cookie present the request passes only when
the CSRF cookie and the x-csrf-token header are both nonempty and equal,
and is answered 403 otherwise; with no session cookie no check runs. -/
def csrfUse (gen : TokenSource) (cfg : AuthConfig) (req : CsrfRequest) : CsrfOutcome :=
  let method := jsToUpper req.method
  let csrf := alookup req.cookies cfg.csrfCookieName
  if method == "GET" && !(jsTruthy csrf) then
    CsrfOutcome.issueAndNext
      { name := cfg.csrfCookieName, tokenSource := gen, httpOnly := false,
        secure := cfg.cookie.secure, sameSite := cfg.cookie.sameSite,
        path := "/", domain := cfg.cookie.domain, maxAge := 60 * 60 * 24 * 30 }
  else
    let hasSession := jsTruthy (alookup req.cookies cfg.cookie.name)
    if hasSession && mutatingMethods.contains method then
      let header := req.headerCsrfToken.getD ""
      match csrf with
      | some c => if c != "" && header != "" && header == c then CsrfOutcome.nextOnly
                  else CsrfOutcome.reject403
      | none => CsrfOutcome.reject403
    else CsrfOutcome.nextOnly

/-- The token expression of src/package/src/lib/csrf/csrf.middleware.ts. -/
def csrfPackageMiddlewareGen : TokenSource := TokenSource.mathRandomBase36Slice32

/-- The token expression of the sibling middleware copy that calls
randomTokenB64url(24). -/
def csrfCryptoMiddlewareGen : TokenSource := TokenSource.cryptoB64url 24

/- ===================== password and login ===================== -/

/-- DUMMY_HASH from common/password.ts. -/
def DUMMY_HASH : String :=
  "$argon2id$v=19$m=19456,t=2,p=1$YWFhYWFhYWFhYWFhYWFhYQ$Hqj3s1R3g1p7GgM0qA2w0B0C7m0Yk8mX3m9q7x3k9iU"

/-- verifyPassword from common/password.ts: argon2.verify of the hash
against password plus pepper. The argon2 library call is a parameter; its
catch clause folding malformed-hash errors into false is part of that
total function. -/
def verifyPassword (argonVerify : String → String → Bool)
    (hash password pepper : String) : Bool :=
  argonVerify hash (password ++ pepper)

/-- A user row as the auth and session code reads it. isActive mirrors a
nullable column: the source tests isActive === false, so only some false
counts as inactive. -/
structure DbUser where
  id : String
  email : String
  emailVerifiedAt : Option Int
  isActive : Option Bool
deriving DecidableEq, Repr

/-- A passwordCredential row. -/
structure Cred where
  hash : String
  algo : String
deriving DecidableEq, Repr

inductive RespBody where
  | err (msg : String)
  | loginOk (id email : String) (emailVerified : Bool)
deriving DecidableEq, Repr

/-- What AuthService.login returns and which side effects it performed:
the http status and body, the hash argument of the single verifyPassword
call, the audit kinds appended, and whether a session was created. -/
structure LoginResult where
  status : Nat
  body : RespBody
  verifiedAgainstHash : Option String
  auditKinds : List String
  sessionCreated : Bool
deriving DecidableEq, Repr

/-- The user lookup in login: findUnique by the trimmed, lowercased email.
The or-empty guard on the email argument is the identity on strings. -/
def loginUser (usersByEmail : List (String × DbUser)) (email : String) : Option DbUser :=
  alookup usersByEmail (jsToLower (jsTrim email))

/-- The credential lookup in login: only when a user was found. -/
def loginCred (credsByUserId : List (String × Cred)) (user : Option DbUser) : Option Cred :=
  match user with
  | some u => alookup credsByUserId u.id
  | none => none

/-- The hash handed to verifyPassword: cred?.hash || DUMMY_HASH, so the
dummy hash substitutes both a missing credential row and an empty stored
hash. -/
def credHashOrDummy (cred : Option Cred) : String :=
  match cred with
  | some c => if c.hash == "" then DUMMY_HASH else c.hash
  | none => DUMMY_HASH

namespace AuthService

/-- AuthService.login. Verification always runs, before any branching on
the outcome. The source guards the 403 branch with user && so a missing
user falls through to the 401 branch; the match below realises the same
flow. The or-empty guard on the password argument is the identity on
strings. -/
def login (argonVerify : String → String → Bool) (cfg : AuthConfig)
    (usersByEmail : List (String × DbUser)) (credsByUserId : List (String × Cred))
    (email password : String) : LoginResult :=
  let user := loginUser usersByEmail email
  let cred := loginCred credsByUserId user
  let vHash := credHashOrDummy cred
  let ok := verifyPassword argonVerify vHash password cfg.pepper
  match user with
  | none =>
      { status := 401, body := RespBody.err "Invalid credentials",
        verifiedAgainstHash := some vHash, auditKinds := ["LOGIN_FAIL"],
        sessionCreated := false }
  | some u =>
      if !cfg.disableEmailVerification && u.emailVerifiedAt.isNone then
        { status := 403, body := RespBody.err "Email verification required",
          verifiedAgainstHash := some vHash, auditKinds := ["LOGIN_FAIL_NOT_VERIFIED"],
          sessionCreated := false }
      else if !ok || u.isActive == some false then
        { status := 401, body := RespBody.err "Invalid credentials",
          verifiedAgainstHash := some vHash, auditKinds := ["LOGIN_FAIL"],
          sessionCreated := false }
      else
        { status := 200, body := RespBody.loginOk u.id u.email u.emailVerifiedAt.isSome,
          verifiedAgainstHash := some vHash,
          auditKinds := ["LOGIN_SUCCESS"], sessionCreated := true }

end AuthService

/- ===================== rate limiter (ratelimit.guard.ts) ===================== -/

/-- A member of a redis sorted set used as a sliding-window bucket: the
score is the insertion timestamp in unix seconds, the member string is
that timestamp with a random uniqueness suffix. -/
structure RlEntry where
  score : Int
  member : String
deriving DecidableEq, Repr

/-- A bucket: its sorted-set members and the ttl of its last EXPIRE. -/
structure Bucket where
  entries : List RlEntry
  ttlSec : Option Nat
deriving DecidableEq, Repr

inductive RlBy where
  | ip
  | account
deriving DecidableEq, Repr

/-- RateLimitOptions from ratelimit.decorator.ts. -/
structure RateLimitOptions where
  key : String
  limit : Nat
  windowSec : Nat
  by_ : RlBy
deriving DecidableEq, Repr

def rlWindowStart (r : RateLimitOptions) (now : Int) : Int :=
  now - (r.windowSec : Int)

def minScore : List RlEntry → Option Int
  | [] => none
  | e :: es =>
      some (match minScore es with
            | none => e.score
            | some m => min e.score m)

/-- The score zrange(bucket, 0, 0, WITHSCORES) reports, defaulted to now
when the bucket is empty: Number(res?.[1] || now). -/
def rlOldest (entries : List RlEntry) (now : Int) : Int :=
  (minScore entries).getD now

/-- What one loop iteration of RateLimitGuard.canActivate leaves behind:
none means the rule admitted the request; some t means it threw 429 with
Retry-After t. -/
structure RlStep where
  rejectedWith : Option Int
  bucket : Bucket
deriving DecidableEq, Repr

/-- One rule evaluation from RateLimitGuard.canActivate:
zremrangebyscore(bucket, 0, windowStart) prunes scores in the inclusive
range [0, windowStart]; zcard counts what remains; at or above the limit
the guard computes Retry-After from the oldest remaining score and throws,
leaving the pruned bucket otherwise untouched; below the limit it zadds an
entry scored now and sets EXPIRE windowSec. -/
def rlCheck (r : RateLimitOptions) (now : Int) (member : String) (b : Bucket) : RlStep :=
  let windowStart := rlWindowStart r now
  let pruned := b.entries.filter (fun e => !(decide (0 ≤ e.score ∧ e.score ≤ windowStart)))
  let count := pruned.length
  if r.limit ≤ count then
    let oldest := rlOldest pruned now
    let retry := max 1 ((r.windowSec : Int) - (now - oldest))
    { rejectedWith := some retry, bucket := { entries := pruned, ttlSec := b.ttlSec } }
  else
    { rejectedWith := none,
      bucket := { entries := pruned ++ [{ score := now, member := member }],
                  ttlSec := some r.windowSec } }

/-- Modelled from the claim text of C4, for comparison with rlCheck: it
reads the pruning step as removing exactly the entries with timestamp
strictly below windowStart, all else equal. -/
def rlCheckSpec (r : RateLimitOptions) (now : Int) (member : String) (b : Bucket) : RlStep :=
  let windowStart := rlWindowStart r now
  let pruned := b.entries.filter (fun e => !(decide (0 ≤ e.score ∧ e.score < windowStart)))
  let count := pruned.length
  if r.limit ≤ count then
    let oldest := rlOldest pruned now
    let retry := max 1 ((r.windowSec : Int) - (now - oldest))
    { rejectedWith := some retry, bucket := { entries := pruned, ttlSec := b.ttlSec } }
  else
    { rejectedWith := none,
      bucket := { entries := pruned ++ [{ score := now, member := member }],
                  ttlSec := some r.windowSec } }

/-- The bucket key built in the guard loop: rl:ip:ip:key or
rl:acct:email-lowercased:key. -/
def rlBucketKey (r : RateLimitOptions) (ip email : String) : String :=
  match r.by_ with
  | RlBy.ip => "rl:ip:" ++ ip ++ ":" ++ r.key
  | RlBy.account => "rl:acct:" ++ jsToLower email ++ ":" ++ r.key

/-- The redis state seen by the guard; absent keys read as empty buckets. -/
def stateGet (st : List (String × Bucket)) (k : String) : Bucket :=
  (alookup st k).getD { entries := [], ttlSec := none }

/-- The observable run of RateLimitGuard.canActivate: whether a 429 was
thrown and with which Retry-After, the redis state afterwards, and the
bucket keys of the rules that were actually evaluated, in order. -/
structure RlRun where
  rejectedWith : Option Int
  state : List (String × Bucket)
  evaluated : List String
deriving DecidableEq, Repr

/-- The for-loop of RateLimitGuard.canActivate over the decorator rules.
Each iteration draws a fresh uniqueness suffix, modelled by indexing
memberFor with the absolute iteration number. A thrown 429 exits the loop
at once: later rules are neither pruned nor incremented. -/
def rlGuardLoop (rules : List RateLimitOptions) (ip email : String) (now : Int)
    (memberFor : Nat → String) (idx : Nat) (st : List (String × Bucket)) : RlRun :=
  match rules with
  | [] => { rejectedWith := none, state := st, evaluated := [] }
  | r :: rs =>
      let k := rlBucketKey r ip email
      let step := rlCheck r now (memberFor idx) (stateGet st k)
      let st2 := assocSet k step.bucket st
      match step.rejectedWith with
      | some t => { rejectedWith := some t, state := st2, evaluated := [k] }
      | none =>
          let rest := rlGuardLoop rs ip email now memberFor (idx + 1) st2
          { rejectedWith := rest.rejectedWith, state := rest.state,
            evaluated := k :: rest.evaluated }

/-- The ip expression of the guard: first comma-separated token of
x-forwarded-for if nonempty, else the socket address, else empty. Unlike
getIp it neither trims nor validates. -/
def rlGetIp (req : HttpReq) : String :=
  let first := (splitOnChar ',' (req.xForwardedFor.getD "")).headD ""
  if first != "" then first else req.remoteAddress.getD ""

/-- RateLimitGuard.canActivate: with no rules metadata, or an empty rules
list, pass untouched; otherwise run the loop keyed by the request ip and
the lowercased body email. -/
def rateLimitCanActivate (rules : Option (List RateLimitOptions)) (req : HttpReq)
    (email : Option String) (now : Int) (memberFor : Nat → String)
    (st : List (String × Bucket)) : RlRun :=
  match rules with
  | none => { rejectedWith := none, state := st, evaluated := [] }
  | some rs =>
      if rs.length == 0 then { rejectedWith := none, state := st, evaluated := [] }
      else rlGuardLoop rs (rlGetIp req) (email.getD "") now memberFor 0 st

/- ===================== session manager ===================== -/

/-- The cache record shape of session.service.ts, with the two ISO
timestamps carried as unix milliseconds. -/
structure SessionRecord where
  userId : String
  createdAt : Int
  expiresAt : Int
  ipHash : String
  ua : String
deriving DecidableEq, Repr

/-- What a redis session key holds: either valid JSON for a record, or
bytes JSON.parse rejects. -/
inductive CacheVal where
  | stored (r : SessionRecord)
  | malformed (raw : String)
deriving DecidableEq, Repr

/-- A live redis entry plus the absolute expiry its EX ttl set. -/
structure CacheEntry where
  val : CacheVal
  expiryMs : Int
deriving DecidableEq, Repr

/-- A session row in the durable store. -/
structure DbSession where
  userId : String
  createdAt : Int
  expiresAt : Int
  ipHash : String
  userAgent : String
  revokedAt : Option Int
deriving DecidableEq, Repr

/-- The prisma tables the session code touches: session rows keyed by
session id, user rows keyed by user id. -/
structure DurableState where
  sessions : List (String × DbSession)
  users : List (String × DbUser)
deriving DecidableEq, Repr

/-- The shared state of the session manager: the redis cache and, when the
deployment wires prisma, the durable store. -/
structure CoreState where
  cache : List (String × CacheEntry)
  durable : Option DurableState
deriving DecidableEq, Repr

def sessKey (sessionId : String) : String := "sess:" ++ sessionId

/-- A redis GET of a session key: nothing once the EX expiry has passed. -/
def cacheGetRaw (cache : List (String × CacheEntry)) (k : String) (nowMs : Int) : Option CacheVal :=
  match alookup cache k with
  | none => none
  | some e => if nowMs < e.expiryMs then some e.val else none

/-- The principal SessionGuard attaches to the request. -/
structure Principal where
  id : String
  email : String
deriving DecidableEq, Repr

/-- The operations revokeAll issues, in order. -/
inductive RevokeOp where
  | durableDeleteForUser (userId : String)
  | cacheDeleteKeys (keys : List String)
deriving DecidableEq, Repr

namespace SessionService

/-- SessionService.create: mints the record, SETs it under sess:id with
EX ttlSec, and mirrors it into the durable store when one is wired. The
random token and the sha256 digest are library calls passed in; prisma
create of a fresh id is an insert. -/
def create (sha256 : String → String) (cfg : AuthConfig) (st : CoreState)
    (userId : String) (req : HttpReq) (sessionId : String) (nowMs : Int) :
    CoreState × String :=
  let ttlSec : Nat := max 1 (cfg.cookie.ttlDays * 86400)
  let rcd : SessionRecord :=
    { userId := userId, createdAt := nowMs,
      expiresAt := nowMs + (ttlSec : Int) * 1000,
      ipHash := ipHash sha256 (getIp req) cfg.pepper,
      ua := getUserAgent req }
  let cache2 := assocSet (sessKey sessionId)
    { val := CacheVal.stored rcd, expiryMs := nowMs + (ttlSec : Int) * 1000 } st.cache
  let row : DbSession :=
    { userId := userId, createdAt := nowMs,
      expiresAt := nowMs + (ttlSec : Int) * 1000,
      ipHash := rcd.ipHash, userAgent := rcd.ua, revokedAt := none }
  let durable2 :=
    match st.durable with
    | none => none
    | some db => some { db with sessions := assocSet sessionId row db.sessions }
  ({ cache := cache2, durable := durable2 }, sessionId)

/-- SessionService.get: redis GET then JSON.parse, with malformed values
read as absent. -/
def get (st : CoreState) (sessionId : String) (nowMs : Int) : Option SessionRecord :=
  match cacheGetRaw st.cache (sessKey sessionId) nowMs with
  | some (CacheVal.stored r) => some r
  | some (CacheVal.malformed _) => none
  | none => none

/-- SessionService.revoke: DEL the cache key and best-effort delete the
durable row, the catch swallowing a missing-row error. -/
def revoke (st : CoreState) (sessionId : String) : CoreState :=
  { cache := assocErase (sessKey sessionId) st.cache,
    durable :=
      match st.durable with
      | none => none
      | some db => some { db with sessions := assocErase sessionId db.sessions } }

/-- SessionService.revokeAll. With prisma wired: list the subject session
ids from the durable store, and if any exist, deleteMany the durable rows
first and then DEL the cache keys. Without prisma: scan the sess: keys,
GET and parse each, and DEL those whose record carries the subject.
Returns the new state and the deletion operations in issue order. -/
def revokeAll (st : CoreState) (userId : String) (nowMs : Int) :
    CoreState × List RevokeOp :=
  match st.durable with
  | some db =>
      let ids := (db.sessions.filter (fun p => p.2.userId == userId)).map Prod.fst
      if ids = [] then (st, [])
      else
        let db2 := { db with sessions := db.sessions.filter (fun p => !(p.2.userId == userId)) }
        let cache2 := st.cache.filter (fun p => !((ids.map sessKey).contains p.1))
        ({ cache := cache2, durable := some db2 },
         [RevokeOp.durableDeleteForUser userId, RevokeOp.cacheDeleteKeys (ids.map sessKey)])
  | none =>
      let keys := (st.cache.map Prod.fst).filter (fun k => jsStartsWith k "sess:")
      let delKeys := keys.filter (fun k =>
        match cacheGetRaw st.cache k nowMs with
        | some (CacheVal.stored r) => r.userId == userId
        | _ => false)
      if delKeys = [] then (st, [])
      else
        ({ cache := st.cache.filter (fun p => !(delKeys.contains p.1)), durable := none },
         [RevokeOp.cacheDeleteKeys delKeys])

end SessionService

namespace SessionGuard

/-- SessionGuard.canActivate, the transaction variant: read the session
cookie, fetch the cache record, fail closed without prisma, then atomically
require a durable session row that is not revoked and an active owning
user, attaching the principal on success. Returns the principal attached
to the request, or none when the guard answers false. -/
def canActivate (cfg : AuthConfig) (st : CoreState) (req : HttpReq) (nowMs : Int) :
    Option Principal :=
  match alookup req.cookies cfg.cookie.name with
  | none => none
  | some sid =>
      if sid == "" then none
      else
        match SessionService.get st sid nowMs with
        | none => none
        | some rcd =>
            match st.durable with
            | none => none
            | some db =>
                match alookup db.sessions sid with
                | none => none
                | some s =>
                    if s.revokedAt.isSome then none
                    else
                      match alookup db.users rcd.userId with
                      | none => none
                      | some u =>
                          if u.isActive == some false then none
                          else some { id := u.id, email := u.email }

end SessionGuard

/- ===================== shared concrete instances ===================== -/

/-- A configuration as wired in the repository tests. -/
def cfg0 : AuthConfig :=
  { pepper := "pep", csrfCookieName := "csrf-token",
    cookie := { name := "session-id", domain := none, secure := false,
                sameSite := "lax", ttlDays := 7 },
    disableEmailVerification := false }

/-- An unverified active user row. -/
def u1 : DbUser :=
  { id := "u1", email := "u@example.com", emailVerifiedAt := none, isActive := none }

def users1 : List (String × DbUser) := [("u@example.com", u1)]

def creds1 : List (String × Cred) := [("u1", { hash := "H", algo := "argon2id" })]

/-- An argon2 verifier that rejects, standing for a wrong password. -/
def av0 : String → String → Bool := fun _ _ => false

/-- A digest stand-in for the sha256 library call in concrete runs. -/
def sha0 : String → String := fun s => s ++ "#h"

def req7 : HttpReq :=
  { cookies := [], xForwardedFor := none, userAgent := none, remoteAddress := none }

def db7 : DurableState := { sessions := [], users := [("u1", u1)] }

def st7 : CoreState := { cache := [], durable := some db7 }

def db9 : DurableState :=
  { sessions :=
      [("s1", { userId := "u1", createdAt := 0, expiresAt := 99999, ipHash := "h",
                userAgent := "a", revokedAt := none }),
       ("s2", { userId := "u2", createdAt := 0, expiresAt := 99999, ipHash := "h",
                userAgent := "a", revokedAt := none })],
    users := [("u1", u1),
              ("u2", { id := "u2", email := "v@example.com",
                       emailVerifiedAt := some 1, isActive := some true })] }

def entry9a : CacheEntry :=
  { val := CacheVal.stored { userId := "u1", createdAt := 0, expiresAt := 99999,
                             ipHash := "h", ua := "a" }, expiryMs := 99999 }

def entry9b : CacheEntry :=
  { val := CacheVal.stored { userId := "u2", createdAt := 0, expiresAt := 99999,
                             ipHash := "h", ua := "a" }, expiryMs := 99999 }

def st9 : CoreState :=
  { cache := [("sess:s1", entry9a), ("sess:s2", entry9b)], durable := some db9 }

/- ===================== C10 ===================== -/

/-- C10: with no durable store configured, SessionGuard.canActivate answers
false on every request, even when a live, unexpired, unrevoked cache entry
exists for the presented session cookie: a cache-only deployment never
authenticates anything. -/
theorem cache_only_deployment_never_authenticates
    (cfg : AuthConfig) (st : CoreState) (req : HttpReq) (nowMs : Int)
    (hd : st.durable = none) :
    SessionGuard.canActivate cfg st req nowMs = none := by
  unfold SessionGuard.canActivate
  rw [hd]
  cases alookup req.cookies cfg.cookie.name with
  | none => rfl
  | some sid =>
    by_cases hemp : (sid == "") = true
    · simp [hemp]
    · simp only [hemp, Bool.false_eq_true, if_false]
      cases SessionService.get st sid nowMs with
      | none => rfl
      | some rcd => rfl

def st10 : CoreState :=
  { cache := [("sess:abc", entry9a)], durable := none }

def req10 : HttpReq :=
  { cookies := [("session-id", "abc")], xForwardedFor := none,
    userAgent := none, remoteAddress := none }

/-- Witness for C10: a state holding a live cache record for the presented
cookie, read back successfully by the cache layer, that the guard still
refuses because no durable store is wired. -/
theorem cache_only_deployment_never_authenticates_witness :
    SessionService.get st10 "abc" 0 =
      some { userId := "u1", createdAt := 0, expiresAt := 99999, ipHash := "h", ua := "a" } ∧
    SessionGuard.canActivate cfg0 st10 req10 0 = none :=
  ⟨by decide, cache_only_deployment_never_authenticates cfg0 st10 req10 0 rfl⟩

/- ===================== C8 ===================== -/

/-- C8: revoking a session makes principal resolution for its id return
none on any request presenting it; revoke is idempotent, and revoking an
already-gone session (total, never an error) leaves the state unchanged. -/
theorem revoke_then_resolve_none_idempotent
    (cfg : AuthConfig) (st : CoreState) (sid : String) (req : HttpReq) (nowMs : Int)
    (hc : alookup req.cookies cfg.cookie.name = some sid) :
    SessionGuard.canActivate cfg (SessionService.revoke st sid) req nowMs = none ∧
    SessionService.revoke (SessionService.revoke st sid) sid = SessionService.revoke st sid ∧
    (alookup st.cache (sessKey sid) = none →
      (∀ db, st.durable = some db → alookup db.sessions sid = none) →
      SessionService.revoke st sid = st) := by
  refine ⟨?_, ?_, ?_⟩
  · unfold SessionGuard.canActivate
    rw [hc]
    by_cases hemp : (sid == "") = true
    · simp [hemp]
    · simp only [hemp, Bool.false_eq_true, if_false]
      have hget : SessionService.get (SessionService.revoke st sid) sid nowMs = none := by
        unfold SessionService.get cacheGetRaw SessionService.revoke
        simp [alookup_assocErase]
      rw [hget]
  · cases st with
    | mk cache durable =>
      cases durable with
      | none => simp [SessionService.revoke, assocErase_idem]
      | some db => simp [SessionService.revoke, assocErase_idem]
  · intro hcache hdur
    cases st with
    | mk cache durable =>
      simp only at hcache
      cases durable with
      | none =>
        simp only [SessionService.revoke]
        rw [alookup_erase_absent _ _ hcache]
      | some db =>
        have hdb := hdur db rfl
        simp only at hdb
        simp only [SessionService.revoke]
        rw [alookup_erase_absent _ _ hcache, alookup_erase_absent _ _ hdb]

def req8 : HttpReq :=
  { cookies := [("session-id", "s1")], xForwardedFor := none,
    userAgent := none, remoteAddress := none }

/-- Witness for C8 on a concrete two-subject state. -/
theorem revoke_then_resolve_none_idempotent_witness :
    SessionGuard.canActivate cfg0 (SessionService.revoke st9 "s1") req8 5 = none ∧
    SessionService.revoke (SessionService.revoke st9 "s1") "s1" = SessionService.revoke st9 "s1" :=
  ⟨(revoke_then_resolve_none_idempotent cfg0 st9 "s1" req8 5 (by decide)).1,
   (revoke_then_resolve_none_idempotent cfg0 st9 "s1" req8 5 (by decide)).2.1⟩

/- ===================== C7 ===================== -/

/-- C7: for a subject with an existing active durable user row, creating a
session and immediately resolving the principal of the returned session id
yields a principal whose id is the subject id. The session token freshness
hypothesis reflects that the id is a fresh 32-byte random token, so the
prisma insert cannot collide; nonemptiness reflects that the token encoding
is never the empty string. -/
theorem create_then_resolve_principal
    (sha256 : String → String) (cfg : AuthConfig) (st : CoreState) (db : DurableState)
    (subjectId : String) (req req2 : HttpReq) (sessionId : String) (nowMs : Int)
    (usr : DbUser)
    (hd : st.durable = some db)
    (husr : alookup db.users subjectId = some usr)
    (hid : usr.id = subjectId)
    (hact : usr.isActive ≠ some false)
    (hfresh : alookup db.sessions sessionId = none)
    (hne : sessionId ≠ "")
    (hcookie : alookup req2.cookies cfg.cookie.name =
      some (SessionService.create sha256 cfg st subjectId req sessionId nowMs).2) :
    Option.map Principal.id
      (SessionGuard.canActivate cfg
        (SessionService.create sha256 cfg st subjectId req sessionId nowMs).1
        req2 nowMs) = some subjectId := by
  have hret : (SessionService.create sha256 cfg st subjectId req sessionId nowMs).2 = sessionId := rfl
  rw [hret] at hcookie
  have httl : (0 : Int) < ((max 1 (cfg.cookie.ttlDays * 86400) : Nat) : Int) * 1000 := by
    have h1 : (1 : Nat) ≤ max 1 (cfg.cookie.ttlDays * 86400) := Nat.le_max_left 1 _
    have h2 : (1 : Int) ≤ ((max 1 (cfg.cookie.ttlDays * 86400) : Nat) : Int) := by
      exact_mod_cast h1
    nlinarith
  unfold SessionGuard.canActivate
  rw [hcookie]
  have hne2 : (sessionId == "") = false := by
    simpa using hne
  simp only [hne2, Bool.false_eq_true, if_false]
  have hget : SessionService.get
      (SessionService.create sha256 cfg st subjectId req sessionId nowMs).1 sessionId nowMs =
      some { userId := subjectId, createdAt := nowMs,
             expiresAt := nowMs + ((max 1 (cfg.cookie.ttlDays * 86400) : Nat) : Int) * 1000,
             ipHash := ipHash sha256 (getIp req) cfg.pepper,
             ua := getUserAgent req } := by
    unfold SessionService.get cacheGetRaw SessionService.create
    simp only [alookup_assocSet, if_pos rfl]
    have hlt : nowMs < nowMs + ((max 1 (cfg.cookie.ttlDays * 86400) : Nat) : Int) * 1000 := by
      linarith
    simp [hlt]
  rw [hget]
  have hdur : (SessionService.create sha256 cfg st subjectId req sessionId nowMs).1.durable =
      some { sessions := assocSet sessionId
               { userId := subjectId, createdAt := nowMs,
                 expiresAt := nowMs + ((max 1 (cfg.cookie.ttlDays * 86400) : Nat) : Int) * 1000,
                 ipHash := ipHash sha256 (getIp req) cfg.pepper,
                 userAgent := getUserAgent req, revokedAt := none } db.sessions,
             users := db.users } := by
    unfold SessionService.create
    simp only [hd]
  rw [hdur]
  simp only [alookup_assocSet, if_pos rfl, Option.isSome_none, Bool.false_eq_true, if_false]
  rw [husr]
  have hact2 : (usr.isActive == some false) = false := by
    simpa using hact
  simp [hact2, hid]

/-- Witness for C7: concrete create-then-resolve run on an empty store. -/
theorem create_then_resolve_principal_witness :
    Option.map Principal.id
      (SessionGuard.canActivate cfg0
        (SessionService.create sha0 cfg0 st7 "u1" req7 "SID" 1000).1
        { cookies := [("session-id", "SID")], xForwardedFor := none,
          userAgent := none, remoteAddress := none } 1000) = some "u1" :=
  create_then_resolve_principal sha0 cfg0 st7 db7 "u1" req7
    { cookies := [("session-id", "SID")], xForwardedFor := none,
      userAgent := none, remoteAddress := none }
    "SID" 1000 u1 rfl (by decide) (by decide) (by decide) (by decide)
    (by decide) (by decide)

/- ===================== C2 ===================== -/

def reqGet : CsrfRequest := { method := "GET", cookies := [], headerCsrfToken := none }

/-- C2: on a GET request lacking a CSRF cookie, the packaged middleware
issues its token from the Math.random base-36 expression, not from the
cryptographically secure randomTokenB64url primitive; the sibling copy of
the middleware issues randomTokenB64url(24), which is what the claim and
the repository status notes describe. -/
theorem csrf_token_generator_on_get_eval :
    csrfUse csrfPackageMiddlewareGen cfg0 reqGet =
      CsrfOutcome.issueAndNext
        { name := "csrf-token", tokenSource := TokenSource.mathRandomBase36Slice32,
          httpOnly := false, secure := false, sameSite := "lax", path := "/",
          domain := none, maxAge := 2592000 } ∧
    csrfUse csrfCryptoMiddlewareGen cfg0 reqGet =
      CsrfOutcome.issueAndNext
        { name := "csrf-token", tokenSource := TokenSource.cryptoB64url 24,
          httpOnly := false, secure := false, sameSite := "lax", path := "/",
          domain := none, maxAge := 2592000 } := by
  constructor
  · decide
  · decide

/- ===================== C3 ===================== -/

def req3 : HttpReq :=
  { cookies := [], xForwardedFor := some "203.0.113.7",
    userAgent := some "curl/8", remoteAddress := some "10.0.0.1" }

/-- C3: AuditService.append persists the client address verbatim: the row
written for a login failure carries ip 203.0.113.7 exactly as presented in
x-forwarded-for, with no fingerprint hashing and no server-side secret in
scope of the audit component at all. -/
theorem audit_append_persists_raw_ip_eval :
    AuditService.append true "LOGIN_FAIL" (some "u1") (some req3) =
      some { kind := "LOGIN_FAIL", userId := some "u1",
             ip := some "203.0.113.7", ua := some "curl/8" } ∧
    getIp req3 = "203.0.113.7" := by
  constructor
  · decide
  · decide

/- ===================== C6 ===================== -/

/-- C6: on a mutating request the CSRF check runs exactly when a session
cookie is present (truthy): without one the middleware passes the request
through unconditionally; with one the request passes if and only if the
CSRF cookie is present and nonempty, the x-csrf-token header is nonempty,
and the two are equal as strings, and every other case is the 403
rejection. Holds for both middleware copies, whose verification branch is
identical. -/
theorem csrf_mutating_double_submit
    (gen : TokenSource) (cfg : AuthConfig) (req : CsrfRequest)
    (hm : mutatingMethods.contains (jsToUpper req.method) = true) :
    (jsTruthy (alookup req.cookies cfg.cookie.name) = false →
      csrfUse gen cfg req = CsrfOutcome.nextOnly) ∧
    (jsTruthy (alookup req.cookies cfg.cookie.name) = true →
      ((csrfUse gen cfg req = CsrfOutcome.nextOnly ↔
        ∃ c, alookup req.cookies cfg.csrfCookieName = some c ∧ c ≠ "" ∧
          req.headerCsrfToken.getD "" ≠ "" ∧ req.headerCsrfToken.getD "" = c) ∧
       (csrfUse gen cfg req = CsrfOutcome.nextOnly ∨
        csrfUse gen cfg req = CsrfOutcome.reject403))) := by
  have hget : (jsToUpper req.method == "GET") = false := by
    by_cases heq : jsToUpper req.method = "GET"
    · rw [heq] at hm
      exact absurd hm (by decide)
    · simpa using heq
  unfold csrfUse
  simp only [hget, Bool.false_and, Bool.false_eq_true, if_false]
  constructor
  · intro hf
    simp [hf]
  · intro ht
    simp only [ht, hm, Bool.and_self, if_true]
    cases hcs : alookup req.cookies cfg.csrfCookieName with
    | none =>
      constructor
      · constructor
        · intro h
          cases h
        · rintro ⟨c, hc, _⟩
          cases hc
      · right
        rfl
    | some c =>
      by_cases hc : c = ""
      · subst hc
        constructor
        · constructor
          · intro h
            simp at h
          · rintro ⟨c2, hc2, hne2, _⟩
            cases hc2
            exact absurd rfl hne2
        · right
          simp
      · by_cases hh : req.headerCsrfToken.getD "" = ""
        · constructor
          · constructor
            · intro h
              simp [hh] at h
            · rintro ⟨c2, hc2, _, hne3, _⟩
              exact absurd hh hne3
          · right
            simp [hh]
        · by_cases he : req.headerCsrfToken.getD "" = c
          · constructor
            · constructor
              · intro _
                exact ⟨c, rfl, hc, hh, he⟩
              · intro _
                simp [hc, hh, he]
            · left
              simp [hc, hh, he]
          · constructor
            · constructor
              · intro h
                simp [hc, hh, he] at h
              · rintro ⟨c2, hc2, _, _, he2⟩
                cases hc2
                exact absurd he2 he
            · right
              simp [hc, hh, he]

def reqPost6 : CsrfRequest :=
  { method := "post", cookies := [("session-id", "s"), ("csrf-token", "tok")],
    headerCsrfToken := some "tok" }

/-- Witness for C6: a lowercase post with a session cookie and a matching
double-submit pair passes. -/
theorem csrf_mutating_double_submit_witness :
    csrfUse csrfCryptoMiddlewareGen cfg0 reqPost6 = CsrfOutcome.nextOnly :=
  (((csrf_mutating_double_submit csrfCryptoMiddlewareGen cfg0 reqPost6 (by decide)).2
      (by decide)).1).mpr ⟨"tok", by decide, by decide, by decide, by decide⟩

/- ===================== C1 ===================== -/

/-- C1 (amended): on every login attempt, password verification runs
exactly once against the stored credential hash, with the dummy reference
hash substituted when no credential row exists or the stored hash is
empty. Whenever the attempt fails, the response is the identical 401
Invalid credentials pair both when the subject is missing and when the
subject exists and is verified (or verification is disabled); but a
subject that exists unverified while verification is enabled is answered
403 Email verification required, a distinct response. -/
theorem login_always_verifies_and_failure_responses
    (argonVerify : String → String → Bool) (cfg : AuthConfig)
    (usersByEmail : List (String × DbUser)) (credsByUserId : List (String × Cred))
    (email password : String)
    (hfail : (AuthService.login argonVerify cfg usersByEmail credsByUserId email password).status ≠ 200) :
    (AuthService.login argonVerify cfg usersByEmail credsByUserId email password).verifiedAgainstHash
      = some (credHashOrDummy (loginCred credsByUserId (loginUser usersByEmail email))) ∧
    (loginUser usersByEmail email = none →
      (AuthService.login argonVerify cfg usersByEmail credsByUserId email password).status = 401 ∧
      (AuthService.login argonVerify cfg usersByEmail credsByUserId email password).body
        = RespBody.err "Invalid credentials") ∧
    (∀ u, loginUser usersByEmail email = some u →
      (cfg.disableEmailVerification = true ∨ u.emailVerifiedAt.isSome = true) →
      (AuthService.login argonVerify cfg usersByEmail credsByUserId email password).status = 401 ∧
      (AuthService.login argonVerify cfg usersByEmail credsByUserId email password).body
        = RespBody.err "Invalid credentials") ∧
    (∀ u, loginUser usersByEmail email = some u →
      cfg.disableEmailVerification = false → u.emailVerifiedAt = none →
      (AuthService.login argonVerify cfg usersByEmail credsByUserId email password).status = 403 ∧
      (AuthService.login argonVerify cfg usersByEmail credsByUserId email password).body
        = RespBody.err "Email verification required") := by
  cases huser : loginUser usersByEmail email with
  | none =>
    refine ⟨?_, ?_, ?_, ?_⟩
    · simp [AuthService.login, huser]
    · intro _
      constructor
      · simp [AuthService.login, huser]
      · simp [AuthService.login, huser]
    · intro u hu
      exact Option.noConfusion hu
    · intro u hu
      exact Option.noConfusion hu
  | some u =>
    by_cases hver : (!cfg.disableEmailVerification && u.emailVerifiedAt.isNone) = true
    · refine ⟨?_, ?_, ?_, ?_⟩
      · simp [AuthService.login, huser, hver]
      · intro hnone
        exact Option.noConfusion hnone
      · intro u2 hu2 hcase
        injection hu2 with hequ
        subst hequ
        exfalso
        simp only [Bool.and_eq_true, Bool.not_eq_eq_eq_not, Bool.not_true] at hver
        rcases hcase with hdis | hsome
        · rw [hdis] at hver
          simp at hver
        · rcases hver with ⟨_, hnone2⟩
          rw [Option.isNone_iff_eq_none] at hnone2
          rw [hnone2] at hsome
          simp at hsome
      · intro u2 hu2 _ _
        injection hu2 with hequ
        subst hequ
        constructor
        · simp [AuthService.login, huser, hver]
        · simp [AuthService.login, huser, hver]
    · by_cases hok : (!(verifyPassword argonVerify
          (credHashOrDummy (loginCred credsByUserId (loginUser usersByEmail email)))
          password cfg.pepper) || u.isActive == some false) = true
      · rw [huser] at hok
        refine ⟨?_, ?_, ?_, ?_⟩
        · simp only [AuthService.login, huser, hver, Bool.false_eq_true, if_false]
          simp [hok]
        · intro hnone
          exact Option.noConfusion hnone
        · intro u2 hu2 _
          injection hu2 with hequ
          subst hequ
          constructor
          · simp [AuthService.login, huser, hver, hok]
          · simp [AuthService.login, huser, hver, hok]
        · intro u2 hu2 hdis hnone
          injection hu2 with hequ
          subst hequ
          exfalso
          simp only [Bool.and_eq_true, Bool.not_eq_eq_eq_not, Bool.not_true] at hver
          apply hver
          constructor
          · simp [hdis]
          · simp [hnone]
      · exfalso
        apply hfail
        rw [huser] at hok
        simp [AuthService.login, huser, hver, hok]

/-- Witness for C1: a failing login for an unknown email gets the generic
401 Invalid credentials pair. -/
theorem login_always_verifies_and_failure_responses_witness :
    (AuthService.login av0 cfg0 users1 creds1 "ghost@example.com" "wrong").status = 401 ∧
    (AuthService.login av0 cfg0 users1 creds1 "ghost@example.com" "wrong").body
      = RespBody.err "Invalid credentials" :=
  (login_always_verifies_and_failure_responses av0 cfg0 users1 creds1
    "ghost@example.com" "wrong" (by decide)).2.1 (by decide)

/-- Counterexample to C1 as stated: two failing login attempts with the
same wrong password, one for an existing but unverified subject and one
for a missing subject, receive textually different failures, 403 Email
verification required against 401 Invalid credentials, so subject
existence is visible at the boundary. -/
theorem login_failure_indistinguishability_counterexample :
    (AuthService.login av0 cfg0 users1 creds1 "u@example.com" "wrong").status = 403 ∧
    (AuthService.login av0 cfg0 users1 creds1 "u@example.com" "wrong").body
      = RespBody.err "Email verification required" ∧
    (AuthService.login av0 cfg0 users1 creds1 "ghost@example.com" "wrong").status = 401 ∧
    (AuthService.login av0 cfg0 users1 creds1 "ghost@example.com" "wrong").body
      = RespBody.err "Invalid credentials" ∧
    (AuthService.login av0 cfg0 users1 creds1 "u@example.com" "wrong").status ≠ 200 ∧
    (AuthService.login av0 cfg0 users1 creds1 "ghost@example.com" "wrong").status ≠ 200 :=
  ⟨by decide, by decide, by decide, by decide, by decide, by decide⟩

/- ===================== C4 ===================== -/

theorem minScore_eq_none_iff (l : List RlEntry) : minScore l = none ↔ l = [] := by
  cases l <;> simp [minScore]

theorem minScore_spec (l : List RlEntry) (m : Int) (h : minScore l = some m) :
    (∃ e ∈ l, e.score = m) ∧ ∀ e ∈ l, m ≤ e.score := by
  induction l generalizing m with
  | nil => simp [minScore] at h
  | cons hd tl ih =>
    simp only [minScore] at h
    cases htl : minScore tl with
    | none =>
      rw [htl] at h
      have htl2 : tl = [] := (minScore_eq_none_iff tl).1 htl
      subst htl2
      injection h with h2
      subst h2
      constructor
      · exact ⟨hd, by simp, rfl⟩
      · intro e he
        simp at he
        subst he
        exact le_refl _
    | some m2 =>
      rw [htl] at h
      injection h with h2
      have h3 : min hd.score m2 = m := h2
      obtain ⟨⟨e0, he0, he0s⟩, hall⟩ := ih m2 htl
      by_cases hle : hd.score ≤ m2
      · have hm : hd.score = m := by
          rw [← h3]
          exact (min_eq_left hle).symm
        subst hm
        constructor
        · exact ⟨hd, by simp, rfl⟩
        · intro e he
          rcases List.mem_cons.mp he with heq | hmem
          · rw [heq]
          · exact le_trans hle (hall e hmem)
      · have hlt : m2 ≤ hd.score := (not_le.mp hle).le
        have hm : m2 = m := by
          rw [← h3]
          exact (min_eq_right hlt).symm
        subst hm
        constructor
        · exact ⟨e0, List.mem_cons_of_mem _ he0, he0s⟩
        · intro e he
          rcases List.mem_cons.mp he with heq | hmem
          · rw [heq]
            exact hlt
          · exact hall e hmem

/-- The entries the pruning step keeps, characterised as in the amended
claim: exactly those with timestamp strictly above windowStart, the
removed set being the inclusive range [0, windowStart]. -/
def rlLive (r : RateLimitOptions) (now : Int) (entries : List RlEntry) : List RlEntry :=
  entries.filter (fun e => decide (rlWindowStart r now < e.score))

/-- C4 (amended): rlCheck removes exactly the entries with timestamp at or
below windowStart = now minus windowSeconds (the removal range is
inclusive at windowStart, not strict), counts the survivors, and if the
count reaches the limit rejects with retryAfter = max(1, windowSeconds
minus (now minus oldest remaining timestamp)), which lies in
[1, windowSeconds] whenever windowSeconds is at least 1 and every stored
timestamp is between 0 and now; otherwise it appends one entry timestamped
now carrying the uniqueness member and sets the bucket expiry to
windowSeconds. -/
theorem ratelimit_check_amended (r : RateLimitOptions) (now : Int) (member : String)
    (b : Bucket) (hw : 1 ≤ r.windowSec)
    (hs : ∀ e ∈ b.entries, 0 ≤ e.score ∧ e.score ≤ now) :
    (r.limit ≤ (rlLive r now b.entries).length →
      rlCheck r now member b =
        { rejectedWith := some (max 1 ((r.windowSec : Int) -
            (now - rlOldest (rlLive r now b.entries) now))),
          bucket := { entries := rlLive r now b.entries, ttlSec := b.ttlSec } } ∧
      ∀ t, (rlCheck r now member b).rejectedWith = some t →
        1 ≤ t ∧ t ≤ (r.windowSec : Int)) ∧
    ((rlLive r now b.entries).length < r.limit →
      rlCheck r now member b =
        { rejectedWith := none,
          bucket := { entries := rlLive r now b.entries ++ [{ score := now, member := member }],
                      ttlSec := some r.windowSec } }) := by
  have hWi : (1 : Int) ≤ (r.windowSec : Int) := by exact_mod_cast hw
  have hpr : b.entries.filter (fun e => !(decide (0 ≤ e.score ∧ e.score ≤ rlWindowStart r now)))
      = rlLive r now b.entries := by
    unfold rlLive
    apply List.filter_congr
    intro e he
    have h1 := hs e he
    by_cases hlt : rlWindowStart r now < e.score
    · have h2 : ¬(0 ≤ e.score ∧ e.score ≤ rlWindowStart r now) := by omega
      simp [h2, hlt]
    · have h2 : 0 ≤ e.score ∧ e.score ≤ rlWindowStart r now := by
        unfold rlWindowStart at hlt ⊢
        omega
      simp [h2, hlt]
  have hkey : rlCheck r now member b =
      if r.limit ≤ (rlLive r now b.entries).length then
        { rejectedWith := some (max 1 ((r.windowSec : Int) -
            (now - rlOldest (rlLive r now b.entries) now))),
          bucket := { entries := rlLive r now b.entries, ttlSec := b.ttlSec } }
      else
        { rejectedWith := none,
          bucket := { entries := rlLive r now b.entries ++ [{ score := now, member := member }],
                      ttlSec := some r.windowSec } } := by
    simp only [rlCheck]
    rw [hpr]
  constructor
  · intro hcount
    rw [hkey, if_pos hcount]
    constructor
    · rfl
    · intro t ht
      injection ht with ht2
      subst ht2
      cases hmin : minScore (rlLive r now b.entries) with
      | none =>
        have hold : rlOldest (rlLive r now b.entries) now = now := by
          unfold rlOldest
          rw [hmin]
          rfl
        rw [hold, sub_self, sub_zero, max_eq_right hWi]
        exact ⟨hWi, le_refl _⟩
      | some m =>
        obtain ⟨⟨e0, he0, he0s⟩, _⟩ := minScore_spec _ _ hmin
        have hold : rlOldest (rlLive r now b.entries) now = m := by
          unfold rlOldest
          rw [hmin]
          rfl
        rw [hold]
        unfold rlLive at he0
        obtain ⟨hmem0, hcond⟩ := List.mem_filter.mp he0
        have hws : rlWindowStart r now < e0.score := of_decide_eq_true hcond
        have hb := hs e0 hmem0
        unfold rlWindowStart at hws
        have h1 : (1 : Int) ≤ (r.windowSec : Int) - (now - m) := by omega
        have h2 : (r.windowSec : Int) - (now - m) ≤ (r.windowSec : Int) := by omega
        rw [max_eq_right h1]
        exact ⟨h1, h2⟩
  · intro hcount
    rw [hkey, if_neg (not_le.mpr hcount)]

def r4 : RateLimitOptions := { key := "login", limit := 1, windowSec := 60, by_ := RlBy.ip }

def b4 : Bucket := { entries := [{ score := 40, member := "40:x" }], ttlSec := some 60 }

/-- Modelled from the claim text of C4: given limit 1 and window 60 at
now = 100, windowStart is 40; an entry timestamped exactly 40 is not
strictly below windowStart, so under the claim wording it survives the
prune and the call must reject; the code removes it (the redis range is
inclusive) and admits the call, inserting a new entry. -/
theorem ratelimit_prune_strict_counterexample :
    (rlCheck r4 100 "100:m" b4).rejectedWith = none ∧
    (rlCheck r4 100 "100:m" b4).bucket.entries = [{ score := 100, member := "100:m" }] ∧
    (rlCheckSpec r4 100 "100:m" b4).rejectedWith = some 1 ∧
    (rlCheckSpec r4 100 "100:m" b4).bucket.entries = [{ score := 40, member := "40:x" }] :=
  ⟨by decide, by decide, by decide, by decide⟩

def rw4 : RateLimitOptions := { key := "login", limit := 1, windowSec := 60, by_ := RlBy.ip }

def bw4 : Bucket := { entries := [{ score := 90, member := "90:x" }], ttlSec := none }

/-- Witness for C4: a full bucket within the window rejects with
Retry-After 50, inside [1, 60]. -/
theorem ratelimit_check_amended_witness :
    rlCheck rw4 100 "100:m" bw4 =
      { rejectedWith := some 50,
        bucket := { entries := [{ score := 90, member := "90:x" }], ttlSec := none } } :=
  (((ratelimit_check_amended rw4 100 "100:m" bw4 (by decide) (by decide)).1
      (by decide)).1).trans (by decide)

/- ===================== C5 ===================== -/

theorem stateGet_assocSet_ne (k k2 : String) (b : Bucket) (st : List (String × Bucket))
    (h : k2 ≠ k) : stateGet (assocSet k b st) k2 = stateGet st k2 := by
  unfold stateGet
  rw [alookup_assocSet]
  simp [h]

/-- C5 (amended): the guard evaluates the decorator rules in order. When
no rule rejects, every rule is evaluated (each pruning and inserting into
its own bucket). When a rule rejects, the request is rejected with that
first rejecting rule's Retry-After, the loop stops, and the later rules
are not evaluated at all: every bucket key outside the evaluated list is
left untouched. So the request passes if and only if no rule rejects
during this in-order evaluation, but it is not true that all rules are
always evaluated. -/
theorem ratelimit_rules_sequential
    (rules : List RateLimitOptions) (ip email : String) (now : Int)
    (memberFor : Nat → String) (idx : Nat) (st : List (String × Bucket)) :
    ((rlGuardLoop rules ip email now memberFor idx st).rejectedWith = none →
      (rlGuardLoop rules ip email now memberFor idx st).evaluated
        = rules.map (fun r => rlBucketKey r ip email)) ∧
    (∀ t, (rlGuardLoop rules ip email now memberFor idx st).rejectedWith = some t →
      ∃ n, ∃ hn : n < rules.length,
        (rlGuardLoop (rules.take n) ip email now memberFor idx st).rejectedWith = none ∧
        (rlGuardLoop rules ip email now memberFor idx st).evaluated
          = (rules.take (n + 1)).map (fun r => rlBucketKey r ip email) ∧
        (rlCheck (rules.get ⟨n, hn⟩) now (memberFor (idx + n))
            (stateGet (rlGuardLoop (rules.take n) ip email now memberFor idx st).state
                      (rlBucketKey (rules.get ⟨n, hn⟩) ip email))).rejectedWith = some t) ∧
    (∀ k, (rlGuardLoop rules ip email now memberFor idx st).evaluated.contains k = false →
      stateGet (rlGuardLoop rules ip email now memberFor idx st).state k = stateGet st k) := by
  induction rules generalizing idx st with
  | nil =>
    refine ⟨fun _ => rfl, ?_, fun k _ => rfl⟩
    intro t ht
    exact Option.noConfusion ht
  | cons r rs ih =>
    cases hstep : (rlCheck r now (memberFor idx) (stateGet st (rlBucketKey r ip email))).rejectedWith with
    | some t0 =>
      have hrun : rlGuardLoop (r :: rs) ip email now memberFor idx st =
          { rejectedWith := some t0,
            state := assocSet (rlBucketKey r ip email)
              (rlCheck r now (memberFor idx) (stateGet st (rlBucketKey r ip email))).bucket st,
            evaluated := [rlBucketKey r ip email] } := by
        simp only [rlGuardLoop]
        rw [hstep]
      refine ⟨?_, ?_, ?_⟩
      · intro h
        rw [hrun] at h
        exact Option.noConfusion h
      · intro t ht
        rw [hrun] at ht
        injection ht with ht2
        subst ht2
        refine ⟨0, by simp, ?_, ?_, ?_⟩
        · rfl
        · rw [hrun]
          rfl
        · have harg : idx + 0 = idx := Nat.add_zero idx
          rw [harg]
          exact hstep
      · intro k hk
        rw [hrun] at hk
        have hne : k ≠ rlBucketKey r ip email := by
          simpa using hk
        rw [hrun]
        exact stateGet_assocSet_ne _ _ _ _ hne
    | none =>
      have hrun : rlGuardLoop (r :: rs) ip email now memberFor idx st =
          { rejectedWith := (rlGuardLoop rs ip email now memberFor (idx + 1)
              (assocSet (rlBucketKey r ip email)
                (rlCheck r now (memberFor idx) (stateGet st (rlBucketKey r ip email))).bucket st)).rejectedWith,
            state := (rlGuardLoop rs ip email now memberFor (idx + 1)
              (assocSet (rlBucketKey r ip email)
                (rlCheck r now (memberFor idx) (stateGet st (rlBucketKey r ip email))).bucket st)).state,
            evaluated := rlBucketKey r ip email :: (rlGuardLoop rs ip email now memberFor (idx + 1)
              (assocSet (rlBucketKey r ip email)
                (rlCheck r now (memberFor idx) (stateGet st (rlBucketKey r ip email))).bucket st)).evaluated } := by
        simp only [rlGuardLoop]
        rw [hstep]
      obtain ⟨ih1, ih2, ih3⟩ := ih (idx + 1)
        (assocSet (rlBucketKey r ip email)
          (rlCheck r now (memberFor idx) (stateGet st (rlBucketKey r ip email))).bucket st)
      refine ⟨?_, ?_, ?_⟩
      · intro h
        rw [hrun] at h ⊢
        rw [ih1 h]
        rfl
      · intro t ht
        rw [hrun] at ht
        obtain ⟨n, hn, hpre, heval, hcheck⟩ := ih2 t ht
        have hpre2 : rlGuardLoop ((r :: rs).take (n + 1)) ip email now memberFor idx st =
            { rejectedWith := (rlGuardLoop (rs.take n) ip email now memberFor (idx + 1)
                (assocSet (rlBucketKey r ip email)
                  (rlCheck r now (memberFor idx) (stateGet st (rlBucketKey r ip email))).bucket st)).rejectedWith,
              state := (rlGuardLoop (rs.take n) ip email now memberFor (idx + 1)
                (assocSet (rlBucketKey r ip email)
                  (rlCheck r now (memberFor idx) (stateGet st (rlBucketKey r ip email))).bucket st)).state,
              evaluated := rlBucketKey r ip email :: (rlGuardLoop (rs.take n) ip email now memberFor (idx + 1)
                (assocSet (rlBucketKey r ip email)
                  (rlCheck r now (memberFor idx) (stateGet st (rlBucketKey r ip email))).bucket st)).evaluated } := by
          rw [List.take_succ_cons]
          simp only [rlGuardLoop]
          rw [hstep]
        refine ⟨n + 1, by simpa using Nat.succ_lt_succ hn, ?_, ?_, ?_⟩
        · rw [hpre2]
          exact hpre
        · rw [hrun]
          simp only [List.take_succ_cons, List.map_cons]
          rw [heval]
        · have hget : (r :: rs).get ⟨n + 1, by simpa using Nat.succ_lt_succ hn⟩ = rs.get ⟨n, hn⟩ := rfl
          rw [hget, hpre2]
          have harg : idx + (n + 1) = (idx + 1) + n := by omega
          rw [harg]
          exact hcheck
      · intro k hk
        rw [hrun] at hk ⊢
        have hk2 : (rlGuardLoop rs ip email now memberFor (idx + 1)
            (assocSet (rlBucketKey r ip email)
              (rlCheck r now (memberFor idx) (stateGet st (rlBucketKey r ip email))).bucket st)).evaluated.contains k = false := by
          simp only [List.contains_cons, Bool.or_eq_false_iff] at hk
          exact hk.2
        have hne : k ≠ rlBucketKey r ip email := by
          simp only [List.contains_cons, Bool.or_eq_false_iff] at hk
          simpa using hk.1
        rw [ih3 k hk2]
        exact stateGet_assocSet_ne _ _ _ _ hne

def rules5 : List RateLimitOptions :=
  [{ key := "login", limit := 1, windowSec := 60, by_ := RlBy.ip },
   { key := "login", limit := 5, windowSec := 300, by_ := RlBy.account }]

def st5 : List (String × Bucket) :=
  [("rl:ip:1.2.3.4:login", { entries := [{ score := 90, member := "90:x" }], ttlSec := some 60 })]

/-- Counterexample to C5 as stated: with an ip rule and an account rule on
the same action, a request whose ip bucket is already full is rejected at
the first rule; only that one rule is evaluated, and the account bucket is
left empty, with no pruning and no inserted entry, contradicting that all
rules are evaluated on the request. -/
theorem ratelimit_all_rules_evaluated_counterexample :
    (rlGuardLoop rules5 "1.2.3.4" "Bob@X.com" 100 (fun _ => "100:y") 0 st5).rejectedWith = some 50 ∧
    (rlGuardLoop rules5 "1.2.3.4" "Bob@X.com" 100 (fun _ => "100:y") 0 st5).evaluated
      = ["rl:ip:1.2.3.4:login"] ∧
    (rlGuardLoop rules5 "1.2.3.4" "Bob@X.com" 100 (fun _ => "100:y") 0 st5).evaluated
      ≠ rules5.map (fun r => rlBucketKey r "1.2.3.4" "Bob@X.com") ∧
    stateGet (rlGuardLoop rules5 "1.2.3.4" "Bob@X.com" 100 (fun _ => "100:y") 0 st5).state
      "rl:acct:bob@x.com:login" = { entries := [], ttlSec := none } :=
  ⟨by decide, by decide, by decide, by decide⟩

/-- Witness for C5: the bucket of a never-evaluated key is untouched by
the guard run. -/
theorem ratelimit_rules_sequential_witness :
    stateGet (rlGuardLoop rules5 "1.2.3.4" "Bob@X.com" 100 (fun _ => "100:y") 0 st5).state
      "rl:ip:9.9.9.9:login" = stateGet st5 "rl:ip:9.9.9.9:login" :=
  (ratelimit_rules_sequential rules5 "1.2.3.4" "Bob@X.com" 100 (fun _ => "100:y") 0 st5).2.2
    "rl:ip:9.9.9.9:login" (by decide)

/- ===================== C9 ===================== -/

theorem sessKey_inj (a b : String) (h : sessKey a = sessKey b) : a = b := by
  unfold sessKey at h
  have h2 : ("sess:" ++ a).data = ("sess:" ++ b).data := congrArg String.data h
  simp only [String.data_append] at h2
  have h3 : a.data = b.data := List.append_cancel_left h2
  cases a
  cases b
  simp only at h3
  rw [h3]

theorem alookup_of_mem_nodup {α : Type} (l : List (String × α))
    (hnd : (l.map Prod.fst).Nodup) (k : String) (v : α) (h : (k, v) ∈ l) :
    alookup l k = some v := by
  induction l with
  | nil => cases h
  | cons hd tl ih =>
    simp only [List.map, List.nodup_cons] at hnd
    rcases List.mem_cons.mp h with heq | hmem
    · rw [← heq]
      simp [alookup]
    · by_cases hk : hd.1 = k
      · exfalso
        apply hnd.1
        rw [hk]
        have : Prod.fst (k, v) ∈ tl.map Prod.fst := List.mem_map_of_mem Prod.fst hmem
        simpa using this
      · simp only [alookup, hk, if_false]
        exact ih hnd.2 hmem

/-- The store invariant tying the cache to the durable store: whenever a
cache key sess:sid holds a parsed record and a durable session row exists
under sid, the two agree on the owning subject. States produced by create
from coherent states are coherent, since create writes both sides with the
same subject under a fresh id. -/
def cacheSessionsCoherent (cache : List (String × CacheEntry))
    (sessions : List (String × DbSession)) : Bool :=
  cache.all (fun pc => sessions.all (fun ps =>
    !(sessKey ps.1 == pc.1) ||
      (match pc.2.val with
       | CacheVal.stored r => ps.2.userId == r.userId
       | CacheVal.malformed _ => true)))

theorem cacheSessionsCoherent_spec (cache : List (String × CacheEntry))
    (sessions : List (String × DbSession))
    (h : cacheSessionsCoherent cache sessions = true)
    (sid : String) (e : CacheEntry) (r : SessionRecord) (s : DbSession)
    (hc : alookup cache (sessKey sid) = some e) (hv : e.val = CacheVal.stored r)
    (hsx : alookup sessions sid = some s) : s.userId = r.userId := by
  have hmc : (sessKey sid, e) ∈ cache := alookup_mem _ _ _ hc
  have hms : (sid, s) ∈ sessions := alookup_mem _ _ _ hsx
  unfold cacheSessionsCoherent at h
  rw [List.all_eq_true] at h
  have h1 := h _ hmc
  rw [List.all_eq_true] at h1
  have h2 := h1 _ hms
  simp only at h2
  simp [hv] at h2
  exact h2

/-- User rows sit under their own id as key. -/
def usersWellKeyed (users : List (String × DbUser)) : Bool :=
  users.all (fun pu => pu.2.id == pu.1)

theorem usersWellKeyed_spec (users : List (String × DbUser))
    (h : usersWellKeyed users = true) (k : String) (u : DbUser)
    (hu : alookup users k = some u) : u.id = k := by
  have hm : (k, u) ∈ users := alookup_mem _ _ _ hu
  unfold usersWellKeyed at h
  rw [List.all_eq_true] at h
  have h2 := h _ hm
  simpa using h2

theorem get_inversion (st : CoreState) (sid : String) (nowMs : Int) (rcd : SessionRecord)
    (h : SessionService.get st sid nowMs = some rcd) :
    ∃ e, alookup st.cache (sessKey sid) = some e ∧ e.val = CacheVal.stored rcd := by
  unfold SessionService.get cacheGetRaw at h
  split at h
  · rename_i heq
    split at heq
    · exact Option.noConfusion heq
    · rename_i e hl
      split at heq
      · rename_i r hr
        injection h with h2
        subst h2
        injection heq with h3
        exact ⟨e, hl, h3⟩
      · exact Option.noConfusion heq
  · exact Option.noConfusion h
  · exact Option.noConfusion h

theorem canActivate_inversion (cfg : AuthConfig) (st : CoreState) (req : HttpReq)
    (nowMs : Int) (p : Principal)
    (h : SessionGuard.canActivate cfg st req nowMs = some p) :
    ∃ sid rcd db2 s usr,
      alookup req.cookies cfg.cookie.name = some sid ∧
      SessionService.get st sid nowMs = some rcd ∧
      st.durable = some db2 ∧
      alookup db2.sessions sid = some s ∧
      s.revokedAt = none ∧
      alookup db2.users rcd.userId = some usr ∧
      p = { id := usr.id, email := usr.email } := by
  unfold SessionGuard.canActivate at h
  split at h
  · exact Option.noConfusion h
  · rename_i sid hc
    split at h
    · exact Option.noConfusion h
    · split at h
      · exact Option.noConfusion h
      · rename_i rcd hget
        split at h
        · exact Option.noConfusion h
        · rename_i db2 hdb
          split at h
          · exact Option.noConfusion h
          · rename_i s hses
            split at h
            · exact Option.noConfusion h
            · rename_i hrev
              split at h
              · exact Option.noConfusion h
              · rename_i usr husr
                split at h
                · exact Option.noConfusion h
                · rename_i hact
                  injection h with h2
                  refine ⟨sid, rcd, db2, s, usr, hc, hget, hdb, hses, ?_, husr, h2.symm⟩
                  rw [← Option.not_isSome_iff_eq_none]
                  simpa using hrev

/-- C9: revokeAll over a subject with a durable store configured, under
the store invariants (distinct durable session keys, cache and durable
rows agreeing on the owning subject, user rows keyed by their id): no
request afterwards resolves to a principal of that subject; every durable
session row of another subject survives untouched with the user table
unchanged; every cache entry recording another subject survives untouched;
and the operation log is either empty (the subject had no durable
sessions) or exactly the durable deleteMany followed by the cache DEL of
the corresponding keys, in that order. -/
theorem revokeAll_subject_only
    (cfg : AuthConfig) (st : CoreState) (db : DurableState) (u : String) (nowMs : Int)
    (hd : st.durable = some db)
    (hnd : (db.sessions.map Prod.fst).Nodup)
    (hcoh : cacheSessionsCoherent st.cache db.sessions = true)
    (hwf : usersWellKeyed db.users = true) :
    (∀ req now2 p,
      SessionGuard.canActivate cfg (SessionService.revokeAll st u nowMs).1 req now2 = some p →
      p.id ≠ u) ∧
    (∀ sid s, alookup db.sessions sid = some s → s.userId ≠ u →
      ∃ db2, (SessionService.revokeAll st u nowMs).1.durable = some db2 ∧
        alookup db2.sessions sid = some s ∧ db2.users = db.users) ∧
    (∀ sid e r, alookup st.cache (sessKey sid) = some e → e.val = CacheVal.stored r →
      r.userId ≠ u →
      alookup (SessionService.revokeAll st u nowMs).1.cache (sessKey sid) = some e) ∧
    ((SessionService.revokeAll st u nowMs).2 = [] ∨
     (SessionService.revokeAll st u nowMs).2 =
       [RevokeOp.durableDeleteForUser u,
        RevokeOp.cacheDeleteKeys
          (((db.sessions.filter (fun q => q.2.userId == u)).map Prod.fst).map sessKey)]) := by
  by_cases hids : (db.sessions.filter (fun q => q.2.userId == u)).map Prod.fst = []
  · have hempty : SessionService.revokeAll st u nowMs = (st, []) := by
      simp only [SessionService.revokeAll, hd]
      rw [if_pos hids]
    have hnosub : ∀ sid s, alookup db.sessions sid = some s → s.userId ≠ u := by
      intro sid s hs hsu
      have hmem : (sid, s) ∈ db.sessions := alookup_mem _ _ _ hs
      have hmf : (sid, s) ∈ db.sessions.filter (fun q => q.2.userId == u) :=
        List.mem_filter.mpr ⟨hmem, by simp [hsu]⟩
      have hmm : sid ∈ (db.sessions.filter (fun q => q.2.userId == u)).map Prod.fst := by
        have := List.mem_map_of_mem Prod.fst hmf
        simpa using this
      rw [hids] at hmm
      cases hmm
    refine ⟨?_, ?_, ?_, Or.inl (by rw [hempty])⟩
    · intro req now2 p hres
      rw [hempty] at hres
      obtain ⟨sid, rcd, db2, s, usr, hc, hget, hdb2, hses, hrev, husr, hp⟩ :=
        canActivate_inversion _ _ _ _ _ hres
      have hdb2e : db2 = db := by
        rw [hd] at hdb2
        injection hdb2 with h2
        exact h2.symm
      subst hdb2e
      obtain ⟨e, hce, hcv⟩ := get_inversion _ _ _ _ hget
      have hsr : s.userId = rcd.userId :=
        cacheSessionsCoherent_spec _ _ hcoh sid e rcd s hce hcv hses
      have hup : usr.id = rcd.userId := usersWellKeyed_spec _ hwf _ _ husr
      intro hpidu
      rw [hp] at hpidu
      simp only at hpidu
      apply hnosub sid s hses
      rw [hsr, ← hup, hpidu]
    · intro sid s hs hne
      exact ⟨db, by rw [hempty, hd], hs, rfl⟩
    · intro sid e r hce hcv hne
      rw [hempty]
      exact hce
  · have helse : SessionService.revokeAll st u nowMs =
        ({ cache := st.cache.filter (fun p =>
              !((((db.sessions.filter (fun q => q.2.userId == u)).map Prod.fst).map sessKey).contains p.1)),
           durable := some { sessions := db.sessions.filter (fun p => !(p.2.userId == u)),
                             users := db.users } },
         [RevokeOp.durableDeleteForUser u,
          RevokeOp.cacheDeleteKeys
            (((db.sessions.filter (fun q => q.2.userId == u)).map Prod.fst).map sessKey)]) := by
      simp only [SessionService.revokeAll, hd]
      rw [if_neg hids]
    have hinkey : ∀ sid : String,
        ((((db.sessions.filter (fun q => q.2.userId == u)).map Prod.fst).map sessKey).contains
          (sessKey sid)) = true →
        ∃ s2, alookup db.sessions sid = some s2 ∧ s2.userId = u := by
      intro sid hcon
      have hmem : sessKey sid ∈
          ((db.sessions.filter (fun q => q.2.userId == u)).map Prod.fst).map sessKey :=
        List.elem_iff.mp hcon
      obtain ⟨x, hx, hxk⟩ := List.mem_map.mp hmem
      have hxs : x = sid := sessKey_inj _ _ hxk
      subst hxs
      obtain ⟨q, hq, hqk⟩ := List.mem_map.mp hx
      obtain ⟨hqmem, hqpred⟩ := List.mem_filter.mp hq
      subst hqk
      exact ⟨q.2, alookup_of_mem_nodup _ hnd _ _ hqmem, by simpa using hqpred⟩
    refine ⟨?_, ?_, ?_, Or.inr (by rw [helse])⟩
    · intro req now2 p hres
      rw [helse] at hres
      obtain ⟨sid, rcd, db2, s, usr, hc, hget, hdb2, hses, hrev, husr, hp⟩ :=
        canActivate_inversion _ _ _ _ _ hres
      have hdb2e : db2 = { sessions := db.sessions.filter (fun p => !(p.2.userId == u)),
                           users := db.users } := by
        injection hdb2 with h2
        exact h2.symm
      subst hdb2e
      simp only at hses husr
      have hses0 : alookup db.sessions sid = some s ∧ s.userId ≠ u := by
        cases horig : alookup db.sessions sid with
        | none =>
          exfalso
          have hnone : alookup (db.sessions.filter (fun p => !(p.2.userId == u))) sid = none :=
            alookup_none_of_none _ _ _ horig
          rw [hnone] at hses
          exact Option.noConfusion hses
        | some s0 =>
          have hfl := alookup_filter_nodup (fun p => !(p.2.userId == u)) db.sessions hnd sid s0 horig
          rw [hfl] at hses
          by_cases hp0 : (!(s0.userId == u)) = true
          · rw [if_pos hp0] at hses
            injection hses with h3
            subst h3
            exact ⟨rfl, by simpa using hp0⟩
          · rw [if_neg hp0] at hses
            exact Option.noConfusion hses
      obtain ⟨horig2, hneu⟩ := hses0
      obtain ⟨e, hce, hcv⟩ := get_inversion _ _ _ _ hget
      simp only at hce
      rw [alookup_filter_key
        (fun k => !((((db.sessions.filter (fun q => q.2.userId == u)).map Prod.fst).map sessKey).contains k))
        st.cache (sessKey sid)] at hce
      split at hce
      · have hsr : s.userId = rcd.userId :=
          cacheSessionsCoherent_spec _ _ hcoh sid e rcd s hce hcv horig2
        have hup : usr.id = rcd.userId := usersWellKeyed_spec _ hwf _ _ husr
        intro hpidu
        rw [hp] at hpidu
        simp only at hpidu
        apply hneu
        rw [hsr, ← hup, hpidu]
      · exact Option.noConfusion hce
    · intro sid s hs hne
      refine ⟨{ sessions := db.sessions.filter (fun p => !(p.2.userId == u)), users := db.users },
              by rw [helse], ?_, rfl⟩
      have hfl := alookup_filter_nodup (fun p => !(p.2.userId == u)) db.sessions hnd sid s hs
      rw [hfl]
      rw [if_pos (by simpa using hne)]
    · intro sid e r hce hcv hne
      rw [helse]
      simp only
      rw [alookup_filter_key
        (fun k => !((((db.sessions.filter (fun q => q.2.userId == u)).map Prod.fst).map sessKey).contains k))
        st.cache (sessKey sid)]
      have hnotin : ((((db.sessions.filter (fun q => q.2.userId == u)).map Prod.fst).map sessKey).contains
          (sessKey sid)) = false := by
        cases hx : ((((db.sessions.filter (fun q => q.2.userId == u)).map Prod.fst).map sessKey).contains
            (sessKey sid)) with
        | false => rfl
        | true =>
          exfalso
          obtain ⟨s2, hs2, hs2u⟩ := hinkey sid hx
          have hsr : s2.userId = r.userId :=
            cacheSessionsCoherent_spec _ _ hcoh sid e r s2 hce hcv hs2
          apply hne
          rw [← hsr, hs2u]
      rw [hnotin]
      simp only [Bool.not_false, if_true]
      exact hce

/-- Witness for C9: on a two-subject state, revoking all sessions of u1
leaves the u2 cache entry in place and logs the durable deletion before
the cache deletion. -/
theorem revokeAll_subject_only_witness :
    alookup (SessionService.revokeAll st9 "u1" 5).1.cache (sessKey "s2") = some entry9b ∧
    (SessionService.revokeAll st9 "u1" 5).2 =
      [RevokeOp.durableDeleteForUser "u1", RevokeOp.cacheDeleteKeys ["sess:s1"]] := by
  have h := revokeAll_subject_only cfg0 st9 db9 "u1" 5 rfl (by decide) (by decide) (by decide)
  constructor
  · exact h.2.2.1 "s2" entry9b
      { userId := "u2", createdAt := 0, expiresAt := 99999, ipHash := "h", ua := "a" }
      (by decide) (by decide) (by decide)
  · exact ((h.2.2.2).resolve_left (by decide)).trans (by decide)
